import Mathlib

/-!
Verification development for the marching-squares metaballs engine
(src/metaballs.c).  The C code is shallowly embedded over exact rational
arithmetic: float becomes ℚ, and the one place where IEEE infinity is
observable (inverse-square field weight at zero distance) is made explicit
with WithTop ℚ.  Machine integers hold only values far below overflow here,
so they become ℕ / ℤ directly.  The int8 sentinel CELL_POINT_NULL = -1 used
in the lookup table and index slots is rendered as Option (Fin 4), with
none standing for the sentinel.
-/

/-! ## Basic data model (metaballs.h and struct definitions) -/

/-- Mirrors struct point2d_t: a point in a 2d plane, float components as ℚ. -/
structure Point2D where
  x : ℚ
  y : ℚ
deriving DecidableEq

/-- Mirrors struct vector2d_t: a direction vector in a 2d plane. -/
structure Vector2D where
  x : ℚ
  y : ℚ
deriving DecidableEq

/-- Mirrors struct sample_t: one scalar field weight. -/
structure Sample where
  weight : ℚ
deriving DecidableEq

/-- Mirrors struct cell_t.  samples are the 4 corner weights in order
BL, BR, TR, TL; points are the 4 edge points indexed L=0, B=1, R=2, T=3;
indices is the 4-slot segment index list (none = CELL_POINT_NULL);
state_mask is the active-corner bitmask. -/
structure Cell where
  samples : Fin 4 → Sample
  points : Fin 4 → Point2D
  indices : Fin 4 → Option (Fin 4)
  state_mask : ℕ

/-- Constant CELL_SIZE_M = 0.3f, the shipped cell size / sample spacing. -/
def CELL_SIZE_M : ℚ := 3 / 10

/-- Constant SAMPLE_GRID_ROW_COUNT = 100. -/
def SAMPLE_GRID_ROW_COUNT : ℕ := 100

/-- Constant SAMPLE_GRID_COL_COUNT = 100. -/
def SAMPLE_GRID_COL_COUNT : ℕ := 100

/-- Constant GLOB_POS_DELTA_M = 0.01f, the fixed per-tick translation step. -/
def GLOB_POS_DELTA_M : ℚ := 1 / 100

/-- Constant sample_grid_width_m = (SAMPLE_GRID_ROW_COUNT - 1) * CELL_SIZE_M
(the C source uses the row count for the width). -/
def sample_grid_width_m : ℚ := (SAMPLE_GRID_ROW_COUNT - 1 : ℕ) * CELL_SIZE_M

/-- Constant sample_grid_height_m = (SAMPLE_GRID_COL_COUNT - 1) * CELL_SIZE_M. -/
def sample_grid_height_m : ℚ := (SAMPLE_GRID_COL_COUNT - 1 : ℕ) * CELL_SIZE_M

/-! ## Marching-squares lookup table (cell_lookup in metaballs.c) -/

/-- Helper packaging one 4-slot row of the lookup table as a function. -/
def lookupRow (a b c d : Option (Fin 4)) : Fin 4 → Option (Fin 4) :=
  fun i =>
    match i with
    | 0 => a
    | 1 => b
    | 2 => c
    | 3 => d

/-- Mirrors cell_lookup, the 16-row marching squares lookup table of
metaballs.c.  Edge ids: CELL_POINT_L = 0, CELL_POINT_B = 1, CELL_POINT_R = 2,
CELL_POINT_T = 3; CELL_POINT_NULL = -1 becomes none.  Indexed by the
active-corner mask; the catch-all row repeats case 15 (masks above 15 never
arise, compute_cell asserts state_mask <= 15). -/
def cell_lookup : ℕ → Fin 4 → Option (Fin 4)
  | 0 => lookupRow none none none none
  | 1 => lookupRow (some 0) (some 1) none none
  | 2 => lookupRow (some 1) (some 2) none none
  | 3 => lookupRow (some 0) (some 2) none none
  | 4 => lookupRow (some 2) (some 3) none none
  | 5 => lookupRow (some 0) (some 3) (some 1) (some 2)
  | 6 => lookupRow (some 1) (some 3) none none
  | 7 => lookupRow (some 0) (some 3) none none
  | 8 => lookupRow (some 0) (some 3) none none
  | 9 => lookupRow (some 1) (some 3) none none
  | 10 => lookupRow (some 0) (some 1) (some 2) (some 3)
  | 11 => lookupRow (some 2) (some 3) none none
  | 12 => lookupRow (some 0) (some 2) none none
  | 13 => lookupRow (some 1) (some 2) none none
  | 14 => lookupRow (some 0) (some 1) none none
  | _ => lookupRow none none none none

/-- Transcription of the 16-row table printed in the spec (section 4.3),
with edge letters L=0, B=1, R=2, T=3 and a dash as none.  This definition
follows the words of the spec, to be compared with cell_lookup which
follows the source. -/
def spec_segment_table : ℕ → Fin 4 → Option (Fin 4)
  | 0 => lookupRow none none none none
  | 1 => lookupRow (some 0) (some 1) none none
  | 2 => lookupRow (some 1) (some 2) none none
  | 3 => lookupRow (some 0) (some 2) none none
  | 4 => lookupRow (some 2) (some 3) none none
  | 5 => lookupRow (some 0) (some 3) (some 1) (some 2)
  | 6 => lookupRow (some 1) (some 3) none none
  | 7 => lookupRow (some 0) (some 3) none none
  | 8 => lookupRow (some 0) (some 3) none none
  | 9 => lookupRow (some 1) (some 3) none none
  | 10 => lookupRow (some 0) (some 1) (some 2) (some 3)
  | 11 => lookupRow (some 2) (some 3) none none
  | 12 => lookupRow (some 0) (some 2) none none
  | 13 => lookupRow (some 1) (some 2) none none
  | 14 => lookupRow (some 0) (some 1) none none
  | _ => lookupRow none none none none

/-- Number of valid (non-NONE) entries in the lookup table row for mask m. -/
def segment_entry_count (m : ℕ) : ℕ :=
  ((List.finRange 4).filter (fun i => (cell_lookup m i).isSome)).length

/-- Endpoint corners of each edge, read off the cell diagram in the source
comments: L joins BL(0) and TL(3); B joins BL(0) and BR(1); R joins BR(1)
and TR(2); T joins TL(3) and TR(2).  The first component is the corner the
lower bit position belongs to. -/
def edge_corners : Fin 4 → ℕ × ℕ
  | 0 => (0, 3)
  | 1 => (0, 1)
  | 2 => (1, 2)
  | 3 => (2, 3)

/-! ## Cell classification (compute_cell) -/

/-- Mirrors the active-corner-mask loop of compute_cell: bit i is ORed in
when samples[i].weight >= threshold (the shift mirrors 0b0001 << i). -/
def activeMask (samples : Fin 4 → Sample) (threshold : ℚ) : ℕ :=
  (((if (samples 0).weight ≥ threshold then 1 <<< 0 else 0) |||
    (if (samples 1).weight ≥ threshold then 1 <<< 1 else 0)) |||
    (if (samples 2).weight ≥ threshold then 1 <<< 2 else 0)) |||
    (if (samples 3).weight ≥ threshold then 1 <<< 3 else 0)

/-- Helper for case analysis on the four corner comparisons: the mask value
determined by the four active bits. -/
def maskOfBits (b0 b1 b2 b3 : Bool) : ℕ :=
  ((cond b0 1 0 ||| cond b1 2 0) ||| cond b2 4 0) ||| cond b3 8 0

/-- Mirrors the static default_points table of compute_cell: every edge
point starts at the midpoint of its edge.  The cell size is kept as a
parameter cs (CELL_SIZE_M = 3/10 in the shipped configuration) so that
spec scenarios stated at other spacings can be expressed. -/
def default_points (cs : ℚ) : Fin 4 → Point2D
  | 0 => ⟨0, cs * (1 / 2)⟩
  | 1 => ⟨cs * (1 / 2), 0⟩
  | 2 => ⟨cs, cs * (1 / 2)⟩
  | 3 => ⟨cs * (1 / 2), cs⟩

/-- Mirrors compute_cell: copy the samples, reset the points to the default
midpoints, compute the active-corner mask, and fetch the index row from
cell_lookup. -/
def compute_cell (cs : ℚ) (samples : Fin 4 → Sample) (threshold : ℚ) : Cell :=
  { samples := samples
    points := default_points cs
    indices := cell_lookup (activeMask samples threshold)
    state_mask := activeMask samples threshold }

/-- Helper generalizing compute_cell over an arbitrary mask value, used to
do one case analysis over the 16 masks in the interpolation lemmas.
compute_cell cs s t is definitionally cellOfMask cs s (activeMask s t). -/
def cellOfMask (cs : ℚ) (samples : Fin 4 → Sample) (m : ℕ) : Cell :=
  { samples := samples
    points := default_points cs
    indices := cell_lookup m
    state_mask := m }

/-! ## Edge interpolation (lerp and lerp_cell) -/

/-- Mirrors lerp: CELL_SIZE_M * ((threshold - minor) / (major - minor)),
with the cell size as parameter cs. -/
def lerp (cs threshold minor_weight major_weight : ℚ) : ℚ :=
  cs * ((threshold - minor_weight) / (major_weight - minor_weight))

/-- One iteration body of the lerp_cell loop: given the in-use point index,
update that point.  L reuses the left neighbor right-point y when a left
cell is present, else lerps from BL/TL; B reuses the bottom neighbor
top-point x when present, else lerps from BL/BR; R and T are always fresh
from BR/TR and TL/TR.  Only the interpolated coordinate changes. -/
def lerpPoint (cs threshold : ℚ) (cell : Cell) (bottom left : Option Cell)
    (idx : Fin 4) (pts : Fin 4 → Point2D) : Fin 4 → Point2D :=
  match idx with
  | 0 =>
    Function.update pts 0
      ⟨(pts 0).x,
        match left with
        | some l => (l.points 2).y
        | none => lerp cs threshold (cell.samples 0).weight (cell.samples 3).weight⟩
  | 1 =>
    Function.update pts 1
      ⟨(match bottom with
        | some b => (b.points 3).x
        | none => lerp cs threshold (cell.samples 0).weight (cell.samples 1).weight),
        (pts 1).y⟩
  | 2 =>
    Function.update pts 2
      ⟨(pts 2).x, lerp cs threshold (cell.samples 1).weight (cell.samples 2).weight⟩
  | 3 =>
    Function.update pts 3
      ⟨lerp cs threshold (cell.samples 3).weight (cell.samples 2).weight, (pts 3).y⟩

/-- The lerp_cell loop over the 4 index slots; a none entry breaks out of
the loop (only interpolate the points that are in use). -/
def lerpSlots (cs threshold : ℚ) (cell : Cell) (bottom left : Option Cell) :
    List (Fin 4) → (Fin 4 → Point2D) → (Fin 4 → Point2D)
  | [], pts => pts
  | s :: rest, pts =>
    match cell.indices s with
    | none => pts
    | some idx =>
      lerpSlots cs threshold cell bottom left rest
        (lerpPoint cs threshold cell bottom left idx pts)

/-- Mirrors lerp_cell: interpolate the in-use points of a computed cell,
reusing the bottom neighbor top point and left neighbor right point when
those cells exist. -/
def lerp_cell (cs threshold : ℚ) (cell : Cell) (bottom left : Option Cell) : Cell :=
  { cell with points := lerpSlots cs threshold cell bottom left [0, 1, 2, 3] cell.points }

/-! ## The cell sweep of generate_isolines_mesh -/

/-- Corner samples of the cell at (col, row), read from the grid weight
function exactly as generate_isolines_mesh does: BL = (col,row),
BR = (col+1,row), TR = (col+1,row+1), TL = (col,row+1). -/
def cornerSamples (w : ℕ → ℕ → ℚ) (col row : ℕ) : Fin 4 → Sample
  | 0 => ⟨w col row⟩
  | 1 => ⟨w (col + 1) row⟩
  | 2 => ⟨w (col + 1) (row + 1)⟩
  | 3 => ⟨w col (row + 1)⟩

/-- One column of the cached sweep: prev is the fully processed previous
column (none at col = 0, mirroring left_column_cache == NULL); within the
column, row 0 has no bottom neighbor and row r+1 uses the cell just
computed below it, exactly as the current_column_cache is used. -/
def columnCell (cs : ℚ) (w : ℕ → ℕ → ℚ) (t : ℚ) (prev : Option (ℕ → Cell))
    (col : ℕ) : ℕ → Cell
  | 0 =>
    lerp_cell cs t (compute_cell cs (cornerSamples w col 0) t) none
      (prev.map (fun f => f 0))
  | row + 1 =>
    lerp_cell cs t (compute_cell cs (cornerSamples w col (row + 1)) t)
      (some (columnCell cs w t prev col row))
      (prev.map (fun f => f (row + 1)))

/-- The column-by-column sweep: column 0 has no left column, column c+1
uses column c as its left column (the two-buffer ping-pong cache holds
exactly these cells when cell (c+1, row) is processed). -/
def gridColumn (cs : ℚ) (w : ℕ → ℕ → ℚ) (t : ℚ) : ℕ → ℕ → Cell
  | 0 => columnCell cs w t none 0
  | col + 1 => columnCell cs w t (some (gridColumn cs w t col)) (col + 1)

/-- The cell at (col, row) as produced during the cached sweep of
generate_isolines_mesh (compute_cell followed by lerp_cell with the cached
neighbors). -/
def cachedCell (cs : ℚ) (w : ℕ → ℕ → ℚ) (t : ℚ) (col row : ℕ) : Cell :=
  gridColumn cs w t col row

/-- The same cell computed naively with no neighbor reuse: every in-use
point freshly interpolated from the cell corners alone. -/
def freshCell (cs : ℚ) (w : ℕ → ℕ → ℚ) (t : ℚ) (col row : ℕ) : Cell :=
  lerp_cell cs t (compute_cell cs (cornerSamples w col row) t) none none

/-- Translation of a local cell-space point into grid space
(point.x += col * CELL_SIZE_M; point.y += row * CELL_SIZE_M). -/
def translatePoint (cs : ℚ) (p : Point2D) (col row : ℕ) : Point2D :=
  ⟨p.x + col * cs, p.y + row * cs⟩

/-- The per-cell emission loop of generate_isolines_mesh: walk the index
slots until a none entry, emitting each referenced point translated into
grid space. -/
def emitSlots (cs : ℚ) (c : Cell) (col row : ℕ) : List (Fin 4) → List Point2D
  | [] => []
  | s :: rest =>
    match c.indices s with
    | none => []
    | some idx => translatePoint cs (c.points idx) col row :: emitSlots cs c col row rest

/-- All points emitted for one cell, in slot order. -/
def cellPoints (cs : ℚ) (c : Cell) (col row : ℕ) : List Point2D :=
  emitSlots cs c col row [0, 1, 2, 3]

/-- The geometry produced by generate_isolines_mesh for one threshold:
sweep cells column by column (col outer, row inner), emitting each cell
segment endpoints in order.  Capacity accounting is modeled separately in
generate_isolines_mesh_checked. -/
def generate_isolines_points (cs : ℚ) (w : ℕ → ℕ → ℚ) (t : ℚ) (cols rows : ℕ) :
    List Point2D :=
  (List.range (cols - 1)).flatMap fun col =>
    (List.range (rows - 1)).flatMap fun row =>
      cellPoints cs (cachedCell cs w t col row) col row

/-- The same mesh geometry with every cell interpolated independently
(the naive duplicate-lerp scheme the cache refines). -/
def naive_isolines_points (cs : ℚ) (w : ℕ → ℕ → ℚ) (t : ℚ) (cols rows : ℕ) :
    List Point2D :=
  (List.range (cols - 1)).flatMap fun col =>
    (List.range (rows - 1)).flatMap fun row =>
      cellPoints cs (freshCell cs w t col row) col row

/-! ## Capacity-checked mesh assembly (the isolines_mesh buffer) -/

/-- Mirrors the append loop body of generate_isolines_mesh with the
capacity check: each point appends its two vertex components and then
tests isolines_mesh_component_count > ISOLINES_MESH_MAX_SIZE - 2 (computed
in ℤ, as in C int arithmetic), exiting fatally with the component count it
reports when the test fires.  The buffer content is the list of appended
components; its length is the number of array slots the C code has
written. -/
def appendPointsChecked (cap : ℤ) : List Point2D → List ℚ × ℤ → Except ℤ (List ℚ × ℤ)
  | [], st => Except.ok st
  | p :: rest, (buf, cnt) =>
    let buf2 := buf ++ [p.x, p.y]
    let cnt2 := cnt + 2
    if cnt2 > cap - 2 then Except.error cnt2
    else appendPointsChecked cap rest (buf2, cnt2)

/-- Sweep order of the cells: columns outer, rows inner. -/
def cellSweepOrder (cols rows : ℕ) : List (ℕ × ℕ) :=
  (List.range (cols - 1)).flatMap fun col =>
    (List.range (rows - 1)).map fun row => (col, row)

/-- The checked sweep: process cells in order, appending each cell output
through the capacity check; a fatal capacity error aborts the sweep. -/
def sweepChecked (cs : ℚ) (w : ℕ → ℕ → ℚ) (t : ℚ) (cap : ℤ) :
    List (ℕ × ℕ) → List ℚ × ℤ → Except ℤ (List ℚ × ℤ)
  | [], st => Except.ok st
  | cr :: rest, st =>
    match appendPointsChecked cap
        (cellPoints cs (cachedCell cs w t cr.1 cr.2) cr.1 cr.2) st with
    | Except.error e => Except.error e
    | Except.ok st2 => sweepChecked cs w t cap rest st2

/-- Mirrors generate_isolines_mesh including the buffer capacity check:
starting from an empty buffer and component count 0, either the flat
component buffer is produced or the fatal capacity condition is signalled
carrying the component count at the moment of detection. -/
def generate_isolines_mesh_checked (cs : ℚ) (w : ℕ → ℕ → ℚ) (t : ℚ)
    (cols rows : ℕ) (cap : ℤ) : Except ℤ (List ℚ × ℤ) :=
  sweepChecked cs w t cap (cellSweepOrder cols rows) ([], 0)

/-! ## Field sources (globbers) and the sample grid -/

/-- Mirrors struct globber_t. -/
structure Globber where
  center_g_m : Point2D
  radius_m : ℚ
  dir : Vector2D
deriving DecidableEq

/-- Mirrors calculate_sample_weight: radius^2 / ((x1-x0)^2 + (y1-y0)^2).
The C code performs this division in float: with a positive numerator and
a zero denominator IEEE division yields +infinity, modeled here as ⊤ of
WithTop ℚ (globber radii are positive, so the 0/0 NaN case never arises);
any nonzero denominator stays exact in ℚ. -/
def calculate_sample_weight (sample_pos_g : Point2D) (glob : Globber) : WithTop ℚ :=
  let d2 := (sample_pos_g.x - glob.center_g_m.x) ^ 2 +
    (sample_pos_g.y - glob.center_g_m.y) ^ 2
  if d2 = 0 then ⊤ else ((glob.radius_m * glob.radius_m / d2 : ℚ) : WithTop ℚ)

/-- Mirrors calculate_sample_weights_sum: fold the per-glob contributions
starting from weight 0 (⊤ + x = ⊤ matches IEEE infinity absorption). -/
def calculate_sample_weights_sum (globs : List Globber) (sample_pos_g_m : Point2D) :
    WithTop ℚ :=
  globs.foldl (fun weight glob => weight + calculate_sample_weight sample_pos_g_m glob) 0

/-- Mirrors the sample positions precomputed by init_sample_gfx_data and
read back by get_sample_vertex: sample (col, row) sits at
(col * CELL_SIZE_M, row * CELL_SIZE_M) in grid space (spacing kept as the
parameter cs). -/
def sample_vertex (cs : ℚ) (col row : ℕ) : Point2D :=
  ⟨col * cs, row * cs⟩

/-- Mirrors one sample update of tick_grid: the stored weight becomes the
sum of all glob contributions at the sample position. -/
def tick_grid_weight (cs : ℚ) (globs : List Globber) (col row : ℕ) : WithTop ℚ :=
  calculate_sample_weights_sum globs (sample_vertex cs col row)

/-- Mirrors handle_glob_collisions: for each axis independently, an
if / else-if pair flips that axis of the direction when the leading edge
has crossed the near or far boundary plane and the glob still moves toward
it. -/
def handle_glob_collisions (width height : ℚ) (glob : Globber) : Globber :=
  let dx :=
    if glob.center_g_m.x < glob.radius_m ∧ glob.dir.x < 0 then -glob.dir.x
    else if width - glob.center_g_m.x < glob.radius_m ∧ glob.dir.x > 0 then -glob.dir.x
    else glob.dir.x
  let dy :=
    if glob.center_g_m.y < glob.radius_m ∧ glob.dir.y < 0 then -glob.dir.y
    else if height - glob.center_g_m.y < glob.radius_m ∧ glob.dir.y > 0 then -glob.dir.y
    else glob.dir.y
  { glob with dir := ⟨dx, dy⟩ }

/-- Mirrors one glob update of tick_globs: translate the center by
dir * GLOB_POS_DELTA_M, then run the boundary collision handling. -/
def tick_glob (width height : ℚ) (glob : Globber) : Globber :=
  handle_glob_collisions width height
    { glob with
      center_g_m :=
        ⟨glob.center_g_m.x + glob.dir.x * GLOB_POS_DELTA_M,
         glob.center_g_m.y + glob.dir.y * GLOB_POS_DELTA_M⟩ }

/-! ## Concrete inputs used by witnesses and counterexamples -/

/-- Weight field with a single active sample at (0, 0), used as a concrete
witness input: the cell at (0,0) gets mask 1 and cells further right and
up stay empty. -/
def wSpike : ℕ → ℕ → ℚ :=
  fun col row => if col = 0 ∧ row = 0 then 1 else 0

/-- Weight field whose single active sample sits at (1, 0), giving the
cell at (1, 0) an active left edge, so that the cache-reuse path from the
cell at (0, 0) is exercised. -/
def wLeft : ℕ → ℕ → ℚ :=
  fun col row => if col = 1 ∧ row = 0 then 1 else 0

/-- Weight field whose single active sample sits at (1, 1): the cell at
(0, 0) has only its TR corner active, mask 4, so its right and top edges
are both in use. -/
def wDiag : ℕ → ℕ → ℚ :=
  fun col row => if col = 1 ∧ row = 1 then 1 else 0

/-- The single field source of the end-to-end spec scenario: center (1,1),
radius 1, moving along +x (the direction is irrelevant to sampling). -/
def scenario_glob : Globber :=
  ⟨⟨1, 1⟩, 1, ⟨1, 0⟩⟩

/-- Sample weights of the end-to-end scenario: a 3x3 grid with spacing 1
and the single scenario source, after one field recomputation. -/
def scenario_weight (col row : ℕ) : WithTop ℚ :=
  tick_grid_weight 1 [scenario_glob] col row

/-- A glob whose radius exceeds half the grid width, placed nearer to the
left boundary than its radius while moving away from that boundary (toward
the right boundary, which is also within its radius). -/
def wide_glob : Globber :=
  ⟨⟨15, 15⟩, 20, ⟨1, 0⟩⟩

/-! ## Helper lemmas about the mask and the lookup table -/

/-- The active-corner mask is exactly determined by the four boolean corner
comparisons. -/
theorem activeMask_eq_maskOfBits (s : Fin 4 → Sample) (t : ℚ) :
    activeMask s t =
      maskOfBits (decide ((s 0).weight ≥ t)) (decide ((s 1).weight ≥ t))
        (decide ((s 2).weight ≥ t)) (decide ((s 3).weight ≥ t)) := by
  by_cases h0 : (s 0).weight ≥ t <;> by_cases h1 : (s 1).weight ≥ t <;>
    by_cases h2 : (s 2).weight ≥ t <;> by_cases h3 : (s 3).weight ≥ t <;>
    simp [activeMask, maskOfBits, h0, h1, h2, h3]

/-- Any mask built from four bits is below 16. -/
theorem maskOfBits_lt (b0 b1 b2 b3 : Bool) : maskOfBits b0 b1 b2 b3 < 16 := by
  cases b0 <;> cases b1 <;> cases b2 <;> cases b3 <;> decide

/-- The active-corner mask is below 16 (the asserted state_mask <= 15). -/
theorem activeMask_lt (s : Fin 4 → Sample) (t : ℚ) : activeMask s t < 16 := by
  rw [activeMask_eq_maskOfBits]; exact maskOfBits_lt _ _ _ _

/-- The left edge id appears in the table row exactly when corners BL and
TL disagree. -/
theorem lookup_left_iff (b0 b1 b2 b3 : Bool) :
    (∃ i : Fin 4, cell_lookup (maskOfBits b0 b1 b2 b3) i = some 0) ↔ b0 ≠ b3 := by
  cases b0 <;> cases b1 <;> cases b2 <;> cases b3 <;> decide

/-- The bottom edge id appears in the table row exactly when corners BL and
BR disagree. -/
theorem lookup_bottom_iff (b0 b1 b2 b3 : Bool) :
    (∃ i : Fin 4, cell_lookup (maskOfBits b0 b1 b2 b3) i = some 1) ↔ b0 ≠ b1 := by
  cases b0 <;> cases b1 <;> cases b2 <;> cases b3 <;> decide

/-- The right edge id appears in the table row exactly when corners BR and
TR disagree. -/
theorem lookup_right_iff (b0 b1 b2 b3 : Bool) :
    (∃ i : Fin 4, cell_lookup (maskOfBits b0 b1 b2 b3) i = some 2) ↔ b1 ≠ b2 := by
  cases b0 <;> cases b1 <;> cases b2 <;> cases b3 <;> decide

/-- The top edge id appears in the table row exactly when corners TL and
TR disagree. -/
theorem lookup_top_iff (b0 b1 b2 b3 : Bool) :
    (∃ i : Fin 4, cell_lookup (maskOfBits b0 b1 b2 b3) i = some 3) ↔ b3 ≠ b2 := by
  cases b0 <;> cases b1 <;> cases b2 <;> cases b3 <;> decide

/-- If a cell has a bottom edge, the cell below it (its TL bit equal to
the upper cell BL bit, its TR bit equal to the upper cell BR bit) has a
top edge. -/
theorem lookup_bottom_to_top (p q c d e f : Bool)
    (h : ∃ i : Fin 4, cell_lookup (maskOfBits p q c d) i = some 1) :
    ∃ i : Fin 4, cell_lookup (maskOfBits e f q p) i = some 3 := by
  revert h
  cases p <;> cases q <;> cases c <;> cases d <;> cases e <;> cases f <;> decide

/-- If a cell has a left edge, the cell to its left (its BR bit equal to
this cell BL bit, its TR bit equal to this cell TL bit) has a right
edge. -/
theorem lookup_left_to_right (a b c d e f : Bool)
    (h : ∃ i : Fin 4, cell_lookup (maskOfBits a b c d) i = some 0) :
    ∃ i : Fin 4, cell_lookup (maskOfBits e a d f) i = some 2 := by
  revert h
  cases a <;> cases b <;> cases c <;> cases d <;> cases e <;> cases f <;> decide

/-! ## Helper lemmas about lerp_cell -/

/-- One lerpPoint update never touches the fixed coordinate of any edge
point: left x, bottom y, right x and top y all survive. -/
theorem lerpPoint_keeps_fixed (cs t : ℚ) (c : Cell) (b l : Option Cell)
    (idx : Fin 4) (pts : Fin 4 → Point2D) :
    ((lerpPoint cs t c b l idx pts) 0).x = (pts 0).x ∧
    ((lerpPoint cs t c b l idx pts) 1).y = (pts 1).y ∧
    ((lerpPoint cs t c b l idx pts) 2).x = (pts 2).x ∧
    ((lerpPoint cs t c b l idx pts) 3).y = (pts 3).y := by
  fin_cases idx <;> simp [lerpPoint, Function.update]

/-- The whole lerp_cell loop keeps the fixed coordinate of every edge
point. -/
theorem lerpSlots_keeps_fixed (cs t : ℚ) (c : Cell) (b l : Option Cell) :
    ∀ (slots : List (Fin 4)) (pts : Fin 4 → Point2D),
      ((lerpSlots cs t c b l slots pts) 0).x = (pts 0).x ∧
      ((lerpSlots cs t c b l slots pts) 1).y = (pts 1).y ∧
      ((lerpSlots cs t c b l slots pts) 2).x = (pts 2).x ∧
      ((lerpSlots cs t c b l slots pts) 3).y = (pts 3).y := by
  intro slots
  induction slots with
  | nil => intro pts; exact ⟨rfl, rfl, rfl, rfl⟩
  | cons s rest ih =>
    intro pts
    cases hidx : c.indices s with
    | none => simp [lerpSlots, hidx]
    | some idx =>
      have hrest := ih (lerpPoint cs t c b l idx pts)
      have hstep := lerpPoint_keeps_fixed cs t c b l idx pts
      simp only [lerpSlots, hidx]
      exact ⟨hrest.1.trans hstep.1, hrest.2.1.trans hstep.2.1,
        hrest.2.2.1.trans hstep.2.2.1, hrest.2.2.2.trans hstep.2.2.2⟩

/-- With a top edge in use, lerp_cell always freshly interpolates the top
point x from the TL and TR corner weights, whatever the neighbors are. -/
theorem lerp_cell_top_fresh (cs t : ℚ) (s : Fin 4 → Sample) (m : ℕ) (b l : Option Cell)
    (hm : m < 16) (h : ∃ i : Fin 4, cell_lookup m i = some 3) :
    ((lerp_cell cs t (cellOfMask cs s m) b l).points 3).x
      = lerp cs t (s 3).weight (s 2).weight := by
  interval_cases m <;>
    first
      | exact absurd h (by decide)
      | simp [lerp_cell, cellOfMask, cell_lookup, lookupRow, lerpSlots, lerpPoint,
          Function.update]

/-- With a right edge in use, lerp_cell always freshly interpolates the
right point y from the BR and TR corner weights, whatever the neighbors
are. -/
theorem lerp_cell_right_fresh (cs t : ℚ) (s : Fin 4 → Sample) (m : ℕ) (b l : Option Cell)
    (hm : m < 16) (h : ∃ i : Fin 4, cell_lookup m i = some 2) :
    ((lerp_cell cs t (cellOfMask cs s m) b l).points 2).y
      = lerp cs t (s 1).weight (s 2).weight := by
  interval_cases m <;>
    first
      | exact absurd h (by decide)
      | simp [lerp_cell, cellOfMask, cell_lookup, lookupRow, lerpSlots, lerpPoint,
          Function.update]

/-- With a left edge in use and no left neighbor, lerp_cell interpolates
the left point y from the BL and TL corner weights. -/
theorem lerp_cell_left_fresh (cs t : ℚ) (s : Fin 4 → Sample) (m : ℕ) (b : Option Cell)
    (hm : m < 16) (h : ∃ i : Fin 4, cell_lookup m i = some 0) :
    ((lerp_cell cs t (cellOfMask cs s m) b none).points 0).y
      = lerp cs t (s 0).weight (s 3).weight := by
  interval_cases m <;>
    first
      | exact absurd h (by decide)
      | simp [lerp_cell, cellOfMask, cell_lookup, lookupRow, lerpSlots, lerpPoint,
          Function.update]

/-- With a bottom edge in use and no bottom neighbor, lerp_cell
interpolates the bottom point x from the BL and BR corner weights. -/
theorem lerp_cell_bottom_fresh (cs t : ℚ) (s : Fin 4 → Sample) (m : ℕ) (l : Option Cell)
    (hm : m < 16) (h : ∃ i : Fin 4, cell_lookup m i = some 1) :
    ((lerp_cell cs t (cellOfMask cs s m) none l).points 1).x
      = lerp cs t (s 0).weight (s 1).weight := by
  interval_cases m <;>
    first
      | exact absurd h (by decide)
      | simp [lerp_cell, cellOfMask, cell_lookup, lookupRow, lerpSlots, lerpPoint,
          Function.update]

/-- Replacing the bottom neighbor by no neighbor does not change lerp_cell,
provided the neighbor top point x already equals the fresh BL/BR
interpolation whenever the bottom edge is in use.  This is the cache-reuse
versus fresh-computation equivalence for the bottom edge. -/
theorem lerp_cell_bottom_swap (cs t : ℚ) (s : Fin 4 → Sample) (m : ℕ) (B : Cell)
    (l : Option Cell) (hm : m < 16)
    (hB : (∃ i : Fin 4, cell_lookup m i = some 1) →
      (B.points 3).x = lerp cs t (s 0).weight (s 1).weight) :
    lerp_cell cs t (cellOfMask cs s m) (some B) l
      = lerp_cell cs t (cellOfMask cs s m) none l := by
  interval_cases m <;>
    first
      | rfl
      | (have h := hB (by decide)
         simp only [lerp_cell, cellOfMask, cell_lookup, lookupRow, lerpSlots, lerpPoint]
         rw [h])

/-- Replacing the left neighbor by no neighbor does not change lerp_cell,
provided the neighbor right point y already equals the fresh BL/TL
interpolation whenever the left edge is in use. -/
theorem lerp_cell_left_swap (cs t : ℚ) (s : Fin 4 → Sample) (m : ℕ) (L : Cell)
    (b : Option Cell) (hm : m < 16)
    (hL : (∃ i : Fin 4, cell_lookup m i = some 0) →
      (L.points 2).y = lerp cs t (s 0).weight (s 3).weight) :
    lerp_cell cs t (cellOfMask cs s m) b (some L)
      = lerp_cell cs t (cellOfMask cs s m) b none := by
  interval_cases m <;>
    first
      | rfl
      | (have h := hL (by decide)
         simp only [lerp_cell, cellOfMask, cell_lookup, lookupRow, lerpSlots, lerpPoint]
         rw [h])

/-- Cache reuse from the bottom neighbor is exact: interpolating the cell
at (col, r+1) with the naively computed cell below it as bottom neighbor
gives the same cell as interpolating with no bottom neighbor at all. -/
theorem lerp_cell_reuse_bottom (cs : ℚ) (w : ℕ → ℕ → ℚ) (t : ℚ) (col r : ℕ)
    (l : Option Cell) :
    lerp_cell cs t (compute_cell cs (cornerSamples w col (r + 1)) t)
        (some (freshCell cs w t col r)) l
      = lerp_cell cs t (compute_cell cs (cornerSamples w col (r + 1)) t) none l := by
  refine lerp_cell_bottom_swap cs t (cornerSamples w col (r + 1))
    (activeMask (cornerSamples w col (r + 1)) t) (freshCell cs w t col r) l
    (activeMask_lt _ _) ?_
  intro hEdge
  have hTop : ∃ i : Fin 4, cell_lookup (activeMask (cornerSamples w col r) t) i = some 3 := by
    rw [activeMask_eq_maskOfBits] at hEdge ⊢
    simp only [cornerSamples] at hEdge ⊢
    exact lookup_bottom_to_top _ _ _ _ _ _ hEdge
  exact lerp_cell_top_fresh cs t (cornerSamples w col r)
    (activeMask (cornerSamples w col r) t) none none (activeMask_lt _ _) hTop

/-- Cache reuse from the left neighbor is exact: interpolating the cell at
(c+1, r) with the naively computed cell to its left as left neighbor gives
the same cell as interpolating with no left neighbor at all. -/
theorem lerp_cell_reuse_left (cs : ℚ) (w : ℕ → ℕ → ℚ) (t : ℚ) (c r : ℕ)
    (b : Option Cell) :
    lerp_cell cs t (compute_cell cs (cornerSamples w (c + 1) r) t) b
        (some (freshCell cs w t c r))
      = lerp_cell cs t (compute_cell cs (cornerSamples w (c + 1) r) t) b none := by
  refine lerp_cell_left_swap cs t (cornerSamples w (c + 1) r)
    (activeMask (cornerSamples w (c + 1) r) t) (freshCell cs w t c r) b
    (activeMask_lt _ _) ?_
  intro hEdge
  have hRight : ∃ i : Fin 4, cell_lookup (activeMask (cornerSamples w c r) t) i = some 2 := by
    rw [activeMask_eq_maskOfBits] at hEdge ⊢
    simp only [cornerSamples] at hEdge ⊢
    exact lookup_left_to_right _ _ _ _ _ _ hEdge
  exact lerp_cell_right_fresh cs t (cornerSamples w c r)
    (activeMask (cornerSamples w c r) t) none none (activeMask_lt _ _) hRight

/-- Every cell of the cached sweep equals the naively interpolated cell:
the two-column cache introduces no deviation anywhere in the grid. -/
theorem cachedCell_eq_freshCell (cs : ℚ) (w : ℕ → ℕ → ℚ) (t : ℚ) :
    ∀ col row, cachedCell cs w t col row = freshCell cs w t col row := by
  intro col
  induction col with
  | zero =>
    intro row
    induction row with
    | zero => rfl
    | succ r ih =>
      have ih2 : columnCell cs w t none 0 r = freshCell cs w t 0 r := ih
      show columnCell cs w t none 0 (r + 1) = freshCell cs w t 0 (r + 1)
      calc columnCell cs w t none 0 (r + 1)
          = lerp_cell cs t (compute_cell cs (cornerSamples w 0 (r + 1)) t)
              (some (columnCell cs w t none 0 r)) none := rfl
        _ = lerp_cell cs t (compute_cell cs (cornerSamples w 0 (r + 1)) t)
              (some (freshCell cs w t 0 r)) none := by rw [ih2]
        _ = lerp_cell cs t (compute_cell cs (cornerSamples w 0 (r + 1)) t)
              none none := lerp_cell_reuse_bottom cs w t 0 r none
        _ = freshCell cs w t 0 (r + 1) := rfl
  | succ c ihc =>
    have ihc2 : ∀ row, gridColumn cs w t c row = freshCell cs w t c row := ihc
    intro row
    induction row with
    | zero =>
      show columnCell cs w t (some (gridColumn cs w t c)) (c + 1) 0
          = freshCell cs w t (c + 1) 0
      calc columnCell cs w t (some (gridColumn cs w t c)) (c + 1) 0
          = lerp_cell cs t (compute_cell cs (cornerSamples w (c + 1) 0) t) none
              (some (gridColumn cs w t c 0)) := rfl
        _ = lerp_cell cs t (compute_cell cs (cornerSamples w (c + 1) 0) t) none
              (some (freshCell cs w t c 0)) := by rw [ihc2 0]
        _ = lerp_cell cs t (compute_cell cs (cornerSamples w (c + 1) 0) t) none
              none := lerp_cell_reuse_left cs w t c 0 none
        _ = freshCell cs w t (c + 1) 0 := rfl
    | succ r ihr =>
      have ihr2 : columnCell cs w t (some (gridColumn cs w t c)) (c + 1) r
          = freshCell cs w t (c + 1) r := ihr
      show columnCell cs w t (some (gridColumn cs w t c)) (c + 1) (r + 1)
          = freshCell cs w t (c + 1) (r + 1)
      calc columnCell cs w t (some (gridColumn cs w t c)) (c + 1) (r + 1)
          = lerp_cell cs t (compute_cell cs (cornerSamples w (c + 1) (r + 1)) t)
              (some (columnCell cs w t (some (gridColumn cs w t c)) (c + 1) r))
              (some (gridColumn cs w t c (r + 1))) := rfl
        _ = lerp_cell cs t (compute_cell cs (cornerSamples w (c + 1) (r + 1)) t)
              (some (freshCell cs w t (c + 1) r))
              (some (freshCell cs w t c (r + 1))) := by rw [ihr2, ihc2 (r + 1)]
        _ = lerp_cell cs t (compute_cell cs (cornerSamples w (c + 1) (r + 1)) t)
              none (some (freshCell cs w t c (r + 1))) :=
            lerp_cell_reuse_bottom cs w t (c + 1) r (some (freshCell cs w t c (r + 1)))
        _ = lerp_cell cs t (compute_cell cs (cornerSamples w (c + 1) (r + 1)) t)
              none none := lerp_cell_reuse_left cs w t c (r + 1) none
        _ = freshCell cs w t (c + 1) (r + 1) := rfl

/-- The cached sweep and the naive sweep emit identical meshes. -/
theorem isolines_points_cached_eq_naive (cs : ℚ) (w : ℕ → ℕ → ℚ) (t : ℚ)
    (cols rows : ℕ) :
    generate_isolines_points cs w t cols rows = naive_isolines_points cs w t cols rows := by
  simp [generate_isolines_points, naive_isolines_points, cachedCell_eq_freshCell]

/-- When all four corners are at or above the threshold the mask is 15. -/
theorem activeMask_all_active (s : Fin 4 → Sample) (t : ℚ)
    (h : ∀ i : Fin 4, (s i).weight ≥ t) : activeMask s t = 15 := by
  rw [activeMask_eq_maskOfBits]
  rw [decide_eq_true (h 0), decide_eq_true (h 1), decide_eq_true (h 2),
    decide_eq_true (h 3)]
  decide

/-- A cell whose first index slot is the sentinel emits no points. -/
theorem cellPoints_of_none (cs : ℚ) (c : Cell) (col row : ℕ)
    (h : c.indices 0 = none) : cellPoints cs c col row = [] := by
  simp [cellPoints, emitSlots, h]

/-- With a nonzero squared distance the weight contribution is the exact
rational inverse-square value. -/
theorem calculate_sample_weight_finite (p : Point2D) (g : Globber)
    (h : (p.x - g.center_g_m.x) ^ 2 + (p.y - g.center_g_m.y) ^ 2 ≠ 0) :
    calculate_sample_weight p g =
      ((g.radius_m * g.radius_m /
        ((p.x - g.center_g_m.x) ^ 2 + (p.y - g.center_g_m.y) ^ 2) : ℚ) : WithTop ℚ) := by
  simp [calculate_sample_weight, h]

/-- The weight fold stays finite and equals the rational sum when no source
sits exactly on the sample point. -/
theorem weights_foldl_coe (p : Point2D) :
    ∀ (l : List Globber) (q : ℚ),
      (∀ g ∈ l, (p.x - g.center_g_m.x) ^ 2 + (p.y - g.center_g_m.y) ^ 2 ≠ 0) →
      l.foldl (fun acc g => acc + calculate_sample_weight p g) ((q : ℚ) : WithTop ℚ)
        = ((q + (l.map fun g => g.radius_m * g.radius_m /
            ((p.x - g.center_g_m.x) ^ 2 + (p.y - g.center_g_m.y) ^ 2)).sum : ℚ) :
              WithTop ℚ) := by
  intro l
  induction l with
  | nil => intro q h; simp
  | cons g rest ih =>
    intro q h
    have hg : (p.x - g.center_g_m.x) ^ 2 + (p.y - g.center_g_m.y) ^ 2 ≠ 0 :=
      h g (by simp)
    have hstep : ((q : ℚ) : WithTop ℚ) + calculate_sample_weight p g
        = ((q + g.radius_m * g.radius_m /
            ((p.x - g.center_g_m.x) ^ 2 + (p.y - g.center_g_m.y) ^ 2) : ℚ) :
              WithTop ℚ) := by
      rw [calculate_sample_weight_finite p g hg, ← WithTop.coe_add]
    have hrest := ih
      (q + g.radius_m * g.radius_m /
        ((p.x - g.center_g_m.x) ^ 2 + (p.y - g.center_g_m.y) ^ 2))
      (fun g2 hg2 => h g2 (by simp [hg2]))
    calc (g :: rest).foldl (fun acc g => acc + calculate_sample_weight p g) ((q : ℚ) : WithTop ℚ)
        = rest.foldl (fun acc g => acc + calculate_sample_weight p g)
            (((q : ℚ) : WithTop ℚ) + calculate_sample_weight p g) := rfl
      _ = rest.foldl (fun acc g => acc + calculate_sample_weight p g)
            ((q + g.radius_m * g.radius_m /
              ((p.x - g.center_g_m.x) ^ 2 + (p.y - g.center_g_m.y) ^ 2) : ℚ) :
                WithTop ℚ) := by rw [hstep]
      _ = _ := by rw [hrest, add_assoc]; simp [List.sum_cons]

/-- A source contributes exactly 1 at any point whose squared distance from
its center equals its squared radius (distance = radius, radius nonzero). -/
theorem weight_at_radius (p : Point2D) (g : Globber)
    (hd : (p.x - g.center_g_m.x) ^ 2 + (p.y - g.center_g_m.y) ^ 2
      = g.radius_m * g.radius_m)
    (hr : g.radius_m ≠ 0) :
    calculate_sample_weight p g = ((1 : ℚ) : WithTop ℚ) := by
  have hne : (p.x - g.center_g_m.x) ^ 2 + (p.y - g.center_g_m.y) ^ 2 ≠ 0 := by
    rw [hd]; exact mul_ne_zero hr hr
  rw [calculate_sample_weight_finite p g hne, hd,
    div_self (mul_ne_zero hr hr)]

/-! ## Claim theorems -/

/-- C1: the marching-squares lookup table maps each of the 16 active-corner
masks to exactly the 16 rows given in the spec (slot by slot, NONE where
unused). -/
theorem cell_lookup_matches_spec_table :
    ∀ (m : Fin 16) (slot : Fin 4), cell_lookup m.val slot = spec_segment_table m.val slot := by
  decide

/-- Bits of a mask built from four booleans. -/
theorem maskOfBits_testBit (b0 b1 b2 b3 : Bool) :
    (maskOfBits b0 b1 b2 b3).testBit 0 = b0 ∧ (maskOfBits b0 b1 b2 b3).testBit 1 = b1 ∧
    (maskOfBits b0 b1 b2 b3).testBit 2 = b2 ∧ (maskOfBits b0 b1 b2 b3).testBit 3 = b3 := by
  cases b0 <;> cases b1 <;> cases b2 <;> cases b3 <;> decide

/-- C3: compute_cell sets bit i of the active-corner mask exactly when the
weight of corner i is at or above the threshold (comparison is >=), and
the mask never exceeds 15. -/
theorem compute_cell_mask_spec (cs : ℚ) (s : Fin 4 → Sample) (t : ℚ) :
    (∀ i : Fin 4, Nat.testBit (compute_cell cs s t).state_mask i.val ↔ (s i).weight ≥ t) ∧
    (compute_cell cs s t).state_mask ≤ 15 := by
  have h15 : (compute_cell cs s t).state_mask < 16 := activeMask_lt s t
  refine ⟨?_, by omega⟩
  intro i
  show Nat.testBit (activeMask s t) i.val = true ↔ (s i).weight ≥ t
  rw [activeMask_eq_maskOfBits]
  rcases maskOfBits_testBit (decide ((s 0).weight ≥ t)) (decide ((s 1).weight ≥ t))
    (decide ((s 2).weight ≥ t)) (decide ((s 3).weight ≥ t)) with ⟨e0, e1, e2, e3⟩
  fin_cases i
  · rw [show ((⟨0, by omega⟩ : Fin 4) : ℕ) = 0 from rfl, e0]; exact decide_eq_true_iff
  · rw [show ((⟨1, by omega⟩ : Fin 4) : ℕ) = 1 from rfl, e1]; exact decide_eq_true_iff
  · rw [show ((⟨2, by omega⟩ : Fin 4) : ℕ) = 2 from rfl, e2]; exact decide_eq_true_iff
  · rw [show ((⟨3, by omega⟩ : Fin 4) : ℕ) = 3 from rfl, e3]; exact decide_eq_true_iff

/-- C6 counterexample: at mask 5 the lookup row carries 4 valid entries,
so the claim that every row has 0 or exactly 2 valid entries is false. -/
theorem lookup_entry_count_claim_false :
    segment_entry_count 5 = 4 ∧
    ¬(segment_entry_count 5 = 0 ∨ segment_entry_count 5 = 2) := by
  decide

/-- C6 amended: every lookup row carries 0, 2 or 4 valid (non-NONE)
entries, never an odd count. -/
theorem lookup_entry_count_even :
    ∀ m : Fin 16, segment_entry_count m.val = 0 ∨ segment_entry_count m.val = 2 ∨
      segment_entry_count m.val = 4 := by
  decide

/-- C10: an edge id appears in the lookup row of a mask exactly when its
two endpoint corners disagree in the mask; consequently a cell of the
cached sweep whose indices contain L has a left neighbor whose indices
contain R (and whose right point was freshly interpolated from the shared
corner weights), and a cell whose indices contain B has a bottom neighbor
whose indices contain T (top point freshly interpolated), so every
cache-reuse read returns an interpolated value, never a stale default
midpoint. -/
theorem lookup_cache_consistency :
    (∀ (m : Fin 16) (e : Fin 4),
      (∃ i : Fin 4, cell_lookup m.val i = some e) ↔
        Nat.testBit m.val (edge_corners e).1 ≠ Nat.testBit m.val (edge_corners e).2) ∧
    (∀ (cs : ℚ) (w : ℕ → ℕ → ℚ) (t : ℚ) (col row : ℕ),
      (∃ i : Fin 4, (cachedCell cs w t (col + 1) row).indices i = some 0) →
        (∃ i : Fin 4, (cachedCell cs w t col row).indices i = some 2) ∧
        ((cachedCell cs w t col row).points 2).y
          = lerp cs t (w (col + 1) row) (w (col + 1) (row + 1))) ∧
    (∀ (cs : ℚ) (w : ℕ → ℕ → ℚ) (t : ℚ) (col row : ℕ),
      (∃ i : Fin 4, (cachedCell cs w t col (row + 1)).indices i = some 1) →
        (∃ i : Fin 4, (cachedCell cs w t col row).indices i = some 3) ∧
        ((cachedCell cs w t col row).points 3).x
          = lerp cs t (w col (row + 1)) (w (col + 1) (row + 1))) := by
  refine ⟨by decide, ?_, ?_⟩
  · intro cs w t col row h
    rw [cachedCell_eq_freshCell] at h
    have h2 : ∃ i : Fin 4,
        cell_lookup (activeMask (cornerSamples w (col + 1) row) t) i = some 0 := h
    have hR : ∃ i : Fin 4,
        cell_lookup (activeMask (cornerSamples w col row) t) i = some 2 := by
      rw [activeMask_eq_maskOfBits] at h2 ⊢
      simp only [cornerSamples] at h2 ⊢
      exact lookup_left_to_right _ _ _ _ _ _ h2
    refine ⟨?_, ?_⟩
    · rw [cachedCell_eq_freshCell]; exact hR
    · rw [cachedCell_eq_freshCell]
      exact lerp_cell_right_fresh cs t (cornerSamples w col row)
        (activeMask (cornerSamples w col row) t) none none (activeMask_lt _ _) hR
  · intro cs w t col row h
    rw [cachedCell_eq_freshCell] at h
    have h2 : ∃ i : Fin 4,
        cell_lookup (activeMask (cornerSamples w col (row + 1)) t) i = some 1 := h
    have hT : ∃ i : Fin 4,
        cell_lookup (activeMask (cornerSamples w col row) t) i = some 3 := by
      rw [activeMask_eq_maskOfBits] at h2 ⊢
      simp only [cornerSamples] at h2 ⊢
      exact lookup_bottom_to_top _ _ _ _ _ _ h2
    refine ⟨?_, ?_⟩
    · rw [cachedCell_eq_freshCell]; exact hT
    · rw [cachedCell_eq_freshCell]
      exact lerp_cell_top_fresh cs t (cornerSamples w col row)
        (activeMask (cornerSamples w col row) t) none none (activeMask_lt _ _) hT

/-- C10 witness: with the single active sample at (1, 0) the cell at (1, 0)
carries a left edge, and indeed the cell at (0, 0) carries a right edge
whose point is the fresh interpolation of the shared corner weights. -/
theorem lookup_cache_consistency_witness :
    (∃ i : Fin 4, (cachedCell (3 / 10) wLeft (1 / 2) 0 0).indices i = some 2) ∧
    ((cachedCell (3 / 10) wLeft (1 / 2) 0 0).points 2).y
      = lerp (3 / 10) (1 / 2) (wLeft 1 0) (wLeft 1 1) :=
  lookup_cache_consistency.2.1 (3 / 10) wLeft (1 / 2) 0 0
    ⟨0, by norm_num [cachedCell, gridColumn, columnCell, lerp_cell, compute_cell,
      activeMask, cornerSamples, wLeft, cell_lookup, lookupRow]⟩

/-- C2: edge-reuse correctness.  In the cached sweep, a cell at column
col+1 whose indices include the left edge carries exactly the fresh
interpolation lerp(threshold, weight BL, weight TL) of its own corners as
its left point y (the value it obtained by copying the left neighbor right
point); a cell at row row+1 whose indices include the bottom edge carries
exactly lerp(threshold, weight BL, weight BR) as its bottom point x; and
the whole cached extraction emits the same mesh as naive independent
per-cell interpolation. -/
theorem edge_reuse_correct (cs : ℚ) (w : ℕ → ℕ → ℚ) (t : ℚ) (col row : ℕ) :
    ((∃ i : Fin 4, (cachedCell cs w t (col + 1) row).indices i = some 0) →
      ((cachedCell cs w t (col + 1) row).points 0).y
        = lerp cs t (w (col + 1) row) (w (col + 1) (row + 1))) ∧
    ((∃ i : Fin 4, (cachedCell cs w t col (row + 1)).indices i = some 1) →
      ((cachedCell cs w t col (row + 1)).points 1).x
        = lerp cs t (w col (row + 1)) (w (col + 1) (row + 1))) ∧
    (∀ cols rows : ℕ,
      generate_isolines_points cs w t cols rows = naive_isolines_points cs w t cols rows) := by
  refine ⟨?_, ?_, fun cols rows => isolines_points_cached_eq_naive cs w t cols rows⟩
  · intro h
    rw [cachedCell_eq_freshCell] at h ⊢
    have h2 : ∃ i : Fin 4,
        cell_lookup (activeMask (cornerSamples w (col + 1) row) t) i = some 0 := h
    exact lerp_cell_left_fresh cs t (cornerSamples w (col + 1) row)
      (activeMask (cornerSamples w (col + 1) row) t) none (activeMask_lt _ _) h2
  · intro h
    rw [cachedCell_eq_freshCell] at h ⊢
    have h2 : ∃ i : Fin 4,
        cell_lookup (activeMask (cornerSamples w col (row + 1)) t) i = some 1 := h
    exact lerp_cell_bottom_fresh cs t (cornerSamples w col (row + 1))
      (activeMask (cornerSamples w col (row + 1)) t) none (activeMask_lt _ _) h2

/-- C2 witness: for the single active sample at (1, 0), the cell at (1, 0)
reuses the left neighbor right point and its left point y equals the fresh
interpolation of its own BL and TL weights. -/
theorem edge_reuse_correct_witness :
    ((cachedCell (3 / 10) wLeft (1 / 2) 1 0).points 0).y
      = lerp (3 / 10) (1 / 2) (wLeft 1 0) (wLeft 1 1) :=
  (edge_reuse_correct (3 / 10) wLeft (1 / 2) 0 0).1
    ⟨0, by norm_num [cachedCell, gridColumn, columnCell, lerp_cell, compute_cell,
      activeMask, cornerSamples, wLeft, cell_lookup, lookupRow]⟩

/-- C5: the right point y and top point x are always freshly interpolated
from BR/TR and TL/TR respectively whenever those edges are in use, for any
neighbor configuration, and the non-interpolated coordinate of every edge
point is fixed: left x = 0, bottom y = 0, right x = cellSize, top
y = cellSize. -/
theorem lerp_cell_fresh_edges_spec (cs t : ℚ) (s : Fin 4 → Sample) (b l : Option Cell) :
    ((∃ i : Fin 4, (compute_cell cs s t).indices i = some 2) →
      ((lerp_cell cs t (compute_cell cs s t) b l).points 2).y
        = lerp cs t (s 1).weight (s 2).weight) ∧
    ((∃ i : Fin 4, (compute_cell cs s t).indices i = some 3) →
      ((lerp_cell cs t (compute_cell cs s t) b l).points 3).x
        = lerp cs t (s 3).weight (s 2).weight) ∧
    ((lerp_cell cs t (compute_cell cs s t) b l).points 0).x = 0 ∧
    ((lerp_cell cs t (compute_cell cs s t) b l).points 1).y = 0 ∧
    ((lerp_cell cs t (compute_cell cs s t) b l).points 2).x = cs ∧
    ((lerp_cell cs t (compute_cell cs s t) b l).points 3).y = cs := by
  have hfix := lerpSlots_keeps_fixed cs t (compute_cell cs s t) b l [0, 1, 2, 3]
    (compute_cell cs s t).points
  exact ⟨fun h => lerp_cell_right_fresh cs t s (activeMask s t) b l (activeMask_lt s t) h,
    fun h => lerp_cell_top_fresh cs t s (activeMask s t) b l (activeMask_lt s t) h,
    hfix.1, hfix.2.1, hfix.2.2.1, hfix.2.2.2⟩

/-- C5 witness: the cell over the corner weights of wDiag at (0, 0) has
mask 4 with both the right and top edges in use; both interpolated
coordinates take their fresh lerp values. -/
theorem lerp_cell_fresh_edges_witness :
    ((lerp_cell 1 (1 / 2) (compute_cell 1 (cornerSamples wDiag 0 0) (1 / 2)) none none).points 2).y
      = lerp 1 (1 / 2) ((cornerSamples wDiag 0 0) 1).weight ((cornerSamples wDiag 0 0) 2).weight ∧
    ((lerp_cell 1 (1 / 2) (compute_cell 1 (cornerSamples wDiag 0 0) (1 / 2)) none none).points 3).x
      = lerp 1 (1 / 2) ((cornerSamples wDiag 0 0) 3).weight ((cornerSamples wDiag 0 0) 2).weight := by
  have h := lerp_cell_fresh_edges_spec 1 (1 / 2) (cornerSamples wDiag 0 0) none none
  refine ⟨h.1 ⟨0, ?_⟩, h.2.1 ⟨1, ?_⟩⟩ <;>
    norm_num [compute_cell, activeMask, cornerSamples, wDiag, cell_lookup, lookupRow]

/-- C4: after one field recomputation, the stored weight of sample
(col, row) in range equals the sum over all field sources of
radius^2 / squared distance from (col * spacing, row * spacing) to the
source center (no source sitting exactly on the sample point, where the
float division is singular); and a single source contributes exactly 1 at
a point whose distance equals its radius. -/
theorem tick_grid_recompute_spec (cs : ℚ) (globs : List Globber) (col row : ℕ)
    (_hcol : col < SAMPLE_GRID_COL_COUNT) (_hrow : row < SAMPLE_GRID_ROW_COUNT)
    (hoff : ∀ g ∈ globs,
      ((col : ℚ) * cs - g.center_g_m.x) ^ 2 + ((row : ℚ) * cs - g.center_g_m.y) ^ 2 ≠ 0) :
    tick_grid_weight cs globs col row
      = ((globs.map fun g => g.radius_m * g.radius_m /
          (((col : ℚ) * cs - g.center_g_m.x) ^ 2 +
            ((row : ℚ) * cs - g.center_g_m.y) ^ 2)).sum : ℚ) ∧
    (∀ (g : Globber) (p : Point2D),
      (p.x - g.center_g_m.x) ^ 2 + (p.y - g.center_g_m.y) ^ 2 = g.radius_m * g.radius_m →
      g.radius_m ≠ 0 → calculate_sample_weight p g = ((1 : ℚ) : WithTop ℚ)) := by
  refine ⟨?_, fun g p hd hr => weight_at_radius p g hd hr⟩
  have hoff2 : ∀ g ∈ globs,
      ((sample_vertex cs col row).x - g.center_g_m.x) ^ 2 +
        ((sample_vertex cs col row).y - g.center_g_m.y) ^ 2 ≠ 0 := hoff
  have h := weights_foldl_coe (sample_vertex cs col row) globs 0 hoff2
  rw [zero_add] at h
  show globs.foldl
      (fun acc g => acc + calculate_sample_weight (sample_vertex cs col row) g)
      0 = _
  rw [← WithTop.coe_zero, h]
  rfl

/-- C4 witness: one source of radius 1 centered at (1, 1) on a grid with
spacing 1 gives sample (1, 0), at distance exactly the radius, the weight
1 = 1*1/1, matching the claimed sum formula; a direct application of the
per-source clause at that point also yields exactly 1. -/
theorem tick_grid_recompute_witness :
    tick_grid_weight 1 [scenario_glob] 1 0
      = (([scenario_glob].map fun g => g.radius_m * g.radius_m /
          (((1 : ℕ) : ℚ) * 1 - g.center_g_m.x) ^ 2 +
            (((0 : ℕ) : ℚ) * 1 - g.center_g_m.y) ^ 2).sum : ℚ) ∧
    calculate_sample_weight ⟨1, 0⟩ scenario_glob = ((1 : ℚ) : WithTop ℚ) := by
  have h := tick_grid_recompute_spec 1 [scenario_glob] 1 0
    (by norm_num [SAMPLE_GRID_COL_COUNT]) (by norm_num [SAMPLE_GRID_ROW_COUNT])
    (by intro g hg; rw [List.mem_singleton] at hg; subst hg; norm_num [scenario_glob])
  constructor
  · rw [h.1]; norm_num [scenario_glob]
  · exact h.2 scenario_glob ⟨1, 0⟩ (by norm_num [scenario_glob]) (by norm_num [scenario_glob])

/-- C7 counterexample: a glob of radius 20 at x = 15 on the 29.7 m grid is
within its radius of the left boundary and moving away from it (dir.x > 0),
yet one advance-plus-reflect step negates dir.x, because the far boundary
is simultaneously within its radius.  So a source moving away from a near
boundary is not always unaffected. -/
theorem glob_reflection_claim_false :
    wide_glob.center_g_m.x < wide_glob.radius_m ∧ 0 < wide_glob.dir.x ∧
    (tick_glob sample_grid_width_m sample_grid_height_m wide_glob).dir.x
      ≠ wide_glob.dir.x := by
  refine ⟨by norm_num [wide_glob], by norm_num [wide_glob], ?_⟩
  norm_num [tick_glob, handle_glob_collisions, wide_glob, sample_grid_width_m,
    sample_grid_height_m, GLOB_POS_DELTA_M, CELL_SIZE_M, SAMPLE_GRID_ROW_COUNT,
    SAMPLE_GRID_COL_COUNT]

/-- C7 amended: after one advance-plus-reflect step, the center has moved
by exactly direction * step (reflection never clamps position); each axis
of the direction is either kept or negated; a source within its radius of
the near (resp. far) boundary of an axis and moving toward it has that
axis negated; and a source moving away from a near boundary keeps that
axis, provided it is not simultaneously within its radius of the opposite
boundary of the same axis after the translation (each axis handled
independently). -/
theorem glob_reflection_spec (W H : ℚ) (g : Globber) :
    (tick_glob W H g).center_g_m
      = ⟨g.center_g_m.x + g.dir.x * GLOB_POS_DELTA_M,
         g.center_g_m.y + g.dir.y * GLOB_POS_DELTA_M⟩ ∧
    ((tick_glob W H g).dir.x = g.dir.x ∨ (tick_glob W H g).dir.x = -g.dir.x) ∧
    ((tick_glob W H g).dir.y = g.dir.y ∨ (tick_glob W H g).dir.y = -g.dir.y) ∧
    (g.center_g_m.x < g.radius_m → g.dir.x < 0 →
      (tick_glob W H g).dir.x = -g.dir.x) ∧
    (W - g.center_g_m.x < g.radius_m → 0 < g.dir.x →
      (tick_glob W H g).dir.x = -g.dir.x) ∧
    (g.center_g_m.x < g.radius_m → 0 < g.dir.x →
      ¬(W - (g.center_g_m.x + g.dir.x * GLOB_POS_DELTA_M) < g.radius_m) →
      (tick_glob W H g).dir.x = g.dir.x) ∧
    (W - g.center_g_m.x < g.radius_m → g.dir.x < 0 →
      ¬(g.center_g_m.x + g.dir.x * GLOB_POS_DELTA_M < g.radius_m) →
      (tick_glob W H g).dir.x = g.dir.x) ∧
    (g.center_g_m.y < g.radius_m → g.dir.y < 0 →
      (tick_glob W H g).dir.y = -g.dir.y) ∧
    (H - g.center_g_m.y < g.radius_m → 0 < g.dir.y →
      (tick_glob W H g).dir.y = -g.dir.y) ∧
    (g.center_g_m.y < g.radius_m → 0 < g.dir.y →
      ¬(H - (g.center_g_m.y + g.dir.y * GLOB_POS_DELTA_M) < g.radius_m) →
      (tick_glob W H g).dir.y = g.dir.y) ∧
    (H - g.center_g_m.y < g.radius_m → g.dir.y < 0 →
      ¬(g.center_g_m.y + g.dir.y * GLOB_POS_DELTA_M < g.radius_m) →
      (tick_glob W H g).dir.y = g.dir.y) := by
  have hd : GLOB_POS_DELTA_M = 1 / 100 := rfl
  refine ⟨rfl, ?_, ?_, ?_, ?_, ?_, ?_, ?_, ?_, ?_, ?_⟩ <;>
    simp only [tick_glob, handle_glob_collisions]
  · split_ifs <;> simp
  · split_ifs <;> simp
  · intro h1 h2
    split_ifs with hc1 hc2
    · rfl
    · rfl
    · exfalso
      rw [not_and_or] at hc1
      rcases hc1 with hc1 | hc1
      · rw [hd] at hc1; apply hc1; nlinarith
      · exact hc1 h2
  · intro h1 h2
    split_ifs with hc1 hc2
    · exfalso; exact absurd h2 (by linarith [hc1.2])
    · rfl
    · exfalso
      rw [not_and_or] at hc2
      rcases hc2 with hc2 | hc2
      · rw [hd] at hc2; apply hc2; nlinarith
      · exact hc2 h2
  · intro h1 h2 h3
    split_ifs with hc1 hc2
    · exact absurd h2 (by linarith [hc1.2])
    · exact absurd hc2.1 h3
    · rfl
  · intro h1 h2 h3
    split_ifs with hc1 hc2
    · exact absurd hc1.1 h3
    · exact absurd h2 (by linarith [hc2.2])
    · rfl
  · intro h1 h2
    split_ifs with hc1 hc2
    · rfl
    · rfl
    · exfalso
      rw [not_and_or] at hc1
      rcases hc1 with hc1 | hc1
      · rw [hd] at hc1; apply hc1; nlinarith
      · exact hc1 h2
  · intro h1 h2
    split_ifs with hc1 hc2
    · exact absurd h2 (by linarith [hc1.2])
    · rfl
    · exfalso
      rw [not_and_or] at hc2
      rcases hc2 with hc2 | hc2
      · rw [hd] at hc2; apply hc2; nlinarith
      · exact hc2 h2
  · intro h1 h2 h3
    split_ifs with hc1 hc2
    · exact absurd h2 (by linarith [hc1.2])
    · exact absurd hc2.1 h3
    · rfl
  · intro h1 h2 h3
    split_ifs with hc1 hc2
    · exact absurd hc1.1 h3
    · exact absurd h2 (by linarith [hc2.2])
    · rfl

/-- C7 witness: a glob of radius 1 at x = 1/2 moving in -x on the shipped
grid is within its radius of the left boundary and moving toward it; after
one advance-plus-reflect step its x direction is negated. -/
theorem glob_reflection_spec_witness :
    (tick_glob sample_grid_width_m sample_grid_height_m
      ⟨⟨1 / 2, 15⟩, 1, ⟨-1, 0⟩⟩).dir.x = -(-1 : ℚ) :=
  (glob_reflection_spec sample_grid_width_m sample_grid_height_m
    ⟨⟨1 / 2, 15⟩, 1, ⟨-1, 0⟩⟩).2.2.2.1 (by norm_num) (by norm_num)

/-- C8 counterexample: in the end-to-end scenario the center sample sits
exactly at the source center, where the inverse-square weight divides by
zero (IEEE +infinity, ⊤ in the model); it is not 1.0 as the claim
states. -/
theorem scenario_center_weight_claim_false :
    scenario_weight 1 1 = ⊤ ∧ scenario_weight 1 1 ≠ ((1 : ℚ) : WithTop ℚ) := by
  have h : scenario_weight 1 1 = ⊤ := by
    norm_num [scenario_weight, tick_grid_weight, calculate_sample_weights_sum,
      calculate_sample_weight, sample_vertex, scenario_glob]
  exact ⟨h, by rw [h]; simp⟩

/-- C8 amended: in the 3x3 grid scenario with spacing 1, source center
(1,1), radius 1, threshold 1/2: the four corner samples weigh 1/2, the
four edge-midpoint samples (at distance exactly the radius) weigh 1, the
center sample is the singular division by zero (+infinity, hence active);
all nine samples meet the >= threshold test, and for any rational corner
weights that are all at or above the threshold every cell reports mask
0b1111 and the extracted mesh is empty. -/
theorem scenario_end_to_end :
    (scenario_weight 0 0 = ((1 / 2 : ℚ) : WithTop ℚ) ∧
     scenario_weight 2 0 = ((1 / 2 : ℚ) : WithTop ℚ) ∧
     scenario_weight 0 2 = ((1 / 2 : ℚ) : WithTop ℚ) ∧
     scenario_weight 2 2 = ((1 / 2 : ℚ) : WithTop ℚ)) ∧
    (scenario_weight 1 0 = ((1 : ℚ) : WithTop ℚ) ∧
     scenario_weight 0 1 = ((1 : ℚ) : WithTop ℚ) ∧
     scenario_weight 2 1 = ((1 : ℚ) : WithTop ℚ) ∧
     scenario_weight 1 2 = ((1 : ℚ) : WithTop ℚ) ∧
     scenario_weight 1 1 = ⊤) ∧
    (∀ c r : ℕ, c < 3 → r < 3 → ((1 / 2 : ℚ) : WithTop ℚ) ≤ scenario_weight c r) ∧
    (∀ (w : ℕ → ℕ → ℚ) (t : ℚ), (∀ c r : ℕ, c < 3 → r < 3 → t ≤ w c r) →
      (∀ c r : ℕ, c < 2 → r < 2 → (cachedCell 1 w t c r).state_mask = 15) ∧
      generate_isolines_points 1 w t 3 3 = []) := by
  refine ⟨⟨?_, ?_, ?_, ?_⟩, ⟨?_, ?_, ?_, ?_, ?_⟩, ?_, ?_⟩
  case _ => norm_num [scenario_weight, tick_grid_weight, calculate_sample_weights_sum,
    calculate_sample_weight, sample_vertex, scenario_glob]
  case _ => norm_num [scenario_weight, tick_grid_weight, calculate_sample_weights_sum,
    calculate_sample_weight, sample_vertex, scenario_glob]
  case _ => norm_num [scenario_weight, tick_grid_weight, calculate_sample_weights_sum,
    calculate_sample_weight, sample_vertex, scenario_glob]
  case _ => norm_num [scenario_weight, tick_grid_weight, calculate_sample_weights_sum,
    calculate_sample_weight, sample_vertex, scenario_glob]
  case _ => norm_num [scenario_weight, tick_grid_weight, calculate_sample_weights_sum,
    calculate_sample_weight, sample_vertex, scenario_glob]
  case _ => norm_num [scenario_weight, tick_grid_weight, calculate_sample_weights_sum,
    calculate_sample_weight, sample_vertex, scenario_glob]
  case _ => norm_num [scenario_weight, tick_grid_weight, calculate_sample_weights_sum,
    calculate_sample_weight, sample_vertex, scenario_glob]
  case _ => norm_num [scenario_weight, tick_grid_weight, calculate_sample_weights_sum,
    calculate_sample_weight, sample_vertex, scenario_glob]
  case _ => norm_num [scenario_weight, tick_grid_weight, calculate_sample_weights_sum,
    calculate_sample_weight, sample_vertex, scenario_glob]
  case _ =>
    intro c r hc hr
    interval_cases c <;> interval_cases r <;>
      norm_num [scenario_weight, tick_grid_weight, calculate_sample_weights_sum,
        calculate_sample_weight, sample_vertex, scenario_glob, WithTop.coe_le_coe]
  case _ =>
    intro w t hw
    have hmask : ∀ c r : ℕ, c < 2 → r < 2 →
        activeMask (cornerSamples w c r) t = 15 := by
      intro c r hc hr
      apply activeMask_all_active
      intro i
      fin_cases i
      · exact hw c r (by omega) (by omega)
      · exact hw (c + 1) r (by omega) (by omega)
      · exact hw (c + 1) (r + 1) (by omega) (by omega)
      · exact hw c (r + 1) (by omega) (by omega)
    constructor
    · intro c r hc hr
      rw [cachedCell_eq_freshCell]
      show activeMask (cornerSamples w c r) t = 15
      exact hmask c r hc hr
    · have hcell : ∀ c r : ℕ, c < 2 → r < 2 →
          cellPoints 1 (cachedCell 1 w t c r) c r = [] := by
        intro c r hc hr
        apply cellPoints_of_none
        rw [cachedCell_eq_freshCell]
        show cell_lookup (activeMask (cornerSamples w c r) t) 0 = none
        rw [hmask c r hc hr]
        rfl
      have h00 := hcell 0 0 (by norm_num) (by norm_num)
      have h01 := hcell 0 1 (by norm_num) (by norm_num)
      have h10 := hcell 1 0 (by norm_num) (by norm_num)
      have h11 := hcell 1 1 (by norm_num) (by norm_num)
      show generate_isolines_points 1 w t 3 3 = []
      simp [generate_isolines_points, List.range_succ, h00, h01, h10, h11]

/-- C8 witness: instantiating the all-active clause at the constant weight
field 1 and threshold 1/2: the cell at (0, 0) reports mask 15 and the
extracted mesh is empty. -/
theorem scenario_end_to_end_witness :
    (cachedCell 1 (fun _ _ => (1 : ℚ)) (1 / 2) 0 0).state_mask = 15 ∧
    generate_isolines_points 1 (fun _ _ => (1 : ℚ)) (1 / 2) 3 3 = [] := by
  have h := scenario_end_to_end.2.2.2 (fun _ _ => (1 : ℚ)) (1 / 2)
    (fun _ _ _ _ => by norm_num)
  exact ⟨h.1 0 0 (by norm_num) (by norm_num), h.2⟩

/-- With capacity 0, the append loop aborts with reported component count
2 as soon as any point arrives: both components of the first point are
stored (into a buffer with no room) before the check fires. -/
theorem appendPointsChecked_cap_zero (p : Point2D) (ps : List Point2D) :
    appendPointsChecked 0 (p :: ps) ([], 0) = Except.error 2 := by
  simp [appendPointsChecked]

/-- A capacity-0 sweep either emits nothing at all or aborts with
component count 2. -/
theorem sweepChecked_cap_zero (cs : ℚ) (w : ℕ → ℕ → ℚ) (t : ℚ) :
    ∀ cells : List (ℕ × ℕ),
      sweepChecked cs w t 0 cells ([], 0) = Except.ok ([], 0) ∨
      sweepChecked cs w t 0 cells ([], 0) = Except.error 2 := by
  intro cells
  induction cells with
  | nil => left; rfl
  | cons cr rest ih =>
    cases h : cellPoints cs (cachedCell cs w t cr.1 cr.2) cr.1 cr.2 with
    | nil =>
      have hstep : sweepChecked cs w t 0 (cr :: rest) ([], 0)
          = sweepChecked cs w t 0 rest ([], 0) := by
        simp [sweepChecked, h, appendPointsChecked]
      rw [hstep]; exact ih
    | cons p ps =>
      right
      have hstep : sweepChecked cs w t 0 (cr :: rest) ([], 0) = Except.error 2 := by
        simp [sweepChecked, h, appendPointsChecked_cap_zero]
      exact hstep

/-- C9: with mesh capacity 0 and a field that activates a crossing in the
first cell, the checked extraction signals the fatal capacity condition
reporting component count 2: the two components of the first crossing
point were appended past the 0-sized buffer before the post-write check
fired.  In general a capacity-0 extraction either emits nothing or aborts
this way; it never returns an over-capacity mesh. -/
theorem capacity_zero_overflow_write :
    generate_isolines_mesh_checked 1 wSpike (1 / 2) 2 2 0 = Except.error 2 ∧
    (∀ (cs t : ℚ) (w : ℕ → ℕ → ℚ) (cols rows : ℕ),
      generate_isolines_mesh_checked cs w t cols rows 0 = Except.ok ([], 0) ∨
      generate_isolines_mesh_checked cs w t cols rows 0 = Except.error 2) := by
  constructor
  · have hidx : (cachedCell 1 wSpike (1 / 2) 0 0).indices 0 = some 0 := by
      norm_num [cachedCell, gridColumn, columnCell, lerp_cell, compute_cell,
        activeMask, cornerSamples, wSpike, cell_lookup, lookupRow]
    have hps : cellPoints 1 (cachedCell 1 wSpike (1 / 2) 0 0) 0 0
        = translatePoint 1 ((cachedCell 1 wSpike (1 / 2) 0 0).points 0) 0 0
          :: emitSlots 1 (cachedCell 1 wSpike (1 / 2) 0 0) 0 0 [1, 2, 3] := by
      simp only [cellPoints, emitSlots, hidx]
    have happ : appendPointsChecked 0
        (cellPoints 1 (cachedCell 1 wSpike (1 / 2) 0 0) 0 0) ([], 0)
          = Except.error 2 := by
      rw [hps]; exact appendPointsChecked_cap_zero _ _
    show sweepChecked 1 wSpike (1 / 2) 0 (cellSweepOrder 2 2) ([], 0) = Except.error 2
    rw [show cellSweepOrder 2 2 = [(0, 0)] from rfl]
    simp only [sweepChecked]
    rw [happ]
  · intro cs t w cols rows
    exact sweepChecked_cap_zero cs w t (cellSweepOrder cols rows)
